import Mathlib

/-!
Verification of the WNTR water-security metrics
(src/wntr/metrics/water_security.py) and of the temporal signal model
(Pattern / TimeSeries / Demands of wntr.network.elements; that module is
not among the provided sources — only its test suite is — so it is
modelled from the specification).

Numeric values are embedded as rationals.  A pandas DataFrame indexed by
time step (row) and node or link (column) is embedded as a function
`Nat → Nat → ℚ` giving the cell at (time step, column position); a pandas
Series is a function `Nat → ℚ`.
-/

namespace WNTR

/-- Coercion of a numpy boolean mask entry to a number, as used when a
boolean DataFrame is multiplied with a numeric one. -/
def boolToRat (b : Bool) : ℚ := if b then 1 else 0

/-! ## Water-security metrics (embedded from src/wntr/metrics/water_security.py) -/

/-- Embeds `mass_contaminant_consumed(node_results)`: the cell of the
returned table at time step `t`, node `n`.  `demand` and `quality` are the
two node-result tables; `qualityIndex` is the time axis of the quality
table (`node_results['quality'].index`).  The source computes
`maskD = np.greater(demand, 0)`, `deltaT = quality.index[1]`, and returns
`demand*deltaT*quality*maskD`. -/
def mass_contaminant_consumed (demand quality : Nat → Nat → ℚ)
    (qualityIndex : Nat → ℚ) (t n : Nat) : ℚ :=
  let maskD : Bool := decide (0 < demand t n)
  let deltaT : ℚ := qualityIndex 1
  demand t n * deltaT * quality t n * boolToRat maskD

/-- Embeds `volume_contaminant_consumed(node_results, detection_limit)`:
the cell of the returned table at time step `t`, node `n`.  The source
computes `maskQ = np.greater(quality, detection_limit)`,
`maskD = np.greater(demand, 0)`, `deltaT = quality.index[1]`, and returns
`demand*deltaT*maskQ*maskD`. -/
def volume_contaminant_consumed (demand quality : Nat → Nat → ℚ)
    (qualityIndex : Nat → ℚ) (detection_limit : ℚ) (t n : Nat) : ℚ :=
  let maskQ : Bool := decide (detection_limit < quality t n)
  let maskD : Bool := decide (0 < demand t n)
  let deltaT : ℚ := qualityIndex 1
  demand t n * deltaT * boolToRat maskQ * boolToRat maskD

/-- `np.sign` on a rational. -/
def sign (x : ℚ) : ℚ := if 0 < x then 1 else if x < 0 then -1 else 0

/-- Input bundle of `extent_contamination_indirect`: `M` links; the
column selection `flow_rate.loc[:, link_names]` is embedded by indexing
`flow_rate` directly by link position `m < M`, and the column selections
`node_contam.loc[:, link_start_node]` / `.loc[:, link_end_node]` by the
maps `link_start_node, link_end_node : link position → node column`. -/
structure IndirectInput where
  M : Nat
  node_quality : Nat → Nat → ℚ
  flow_rate : Nat → Nat → ℚ
  link_start_node : Nat → Nat
  link_end_node : Nat → Nat
  link_length : Nat → ℚ

/-- `node_contam = node_quality > detection_limit`, one cell. -/
def node_contam (inp : IndirectInput) (dl : ℚ) (t n : Nat) : Bool :=
  decide (dl < inp.node_quality t n)

/-- `link_contam = ((flow_dir>0)&pos_flow) | ((flow_dir<0)&neg_flow)` with
`flow_dir = np.sign(flow_rate.loc[:,link_names])`, one cell at time step
`t`, link position `m`. -/
def link_contam (inp : IndirectInput) (dl : ℚ) (t m : Nat) : Bool :=
  (decide (0 < sign (inp.flow_rate t m)) && node_contam inp dl t (inp.link_start_node m))
    || (decide (sign (inp.flow_rate t m) < 0) && node_contam inp dl t (inp.link_end_node m))

/-- pandas `DataFrame.cummax()` down one column: running maximum of
`f 0, …, f t`. -/
def cummax (f : Nat → ℚ) : Nat → ℚ
  | 0 => f 0
  | t + 1 => max (cummax f t) (f (t + 1))

/-- `contam_len = (link_contam * link_length).cummax()`, the column of
link position `m`, evaluated at time step `t`. -/
def contam_len (inp : IndirectInput) (dl : ℚ) (m t : Nat) : ℚ :=
  cummax (fun j => boolToRat (link_contam inp dl j m) * inp.link_length m) t

/-- Embeds `extent_contamination_indirect(...)`: the returned series
`ec = contam_len.sum(axis=1)` at time step `t`. -/
def extent_contamination_indirect (inp : IndirectInput) (dl : ℚ) (t : Nat) : ℚ :=
  ∑ m ∈ Finset.range inp.M, contam_len inp dl m t

/-- Input bundle of `extent_contamination_direct`: `M` links, the
`link_quality` DataFrame and the `link_length` Series by link position. -/
structure DirectInput where
  M : Nat
  link_quality : Nat → Nat → ℚ
  link_length : Nat → ℚ

/-- `link_contam = link_quality > detection_limit`, one cell. -/
def link_contam_direct (inp : DirectInput) (dl : ℚ) (t m : Nat) : Bool :=
  decide (dl < inp.link_quality t m)

/-- `contam_len = (link_contam * link_length).cummax()` for the direct
method, the column of link position `m` at time step `t`. -/
def contam_len_direct (inp : DirectInput) (dl : ℚ) (m t : Nat) : ℚ :=
  cummax (fun j => boolToRat (link_contam_direct inp dl j m) * inp.link_length m) t

/-- Embeds `extent_contamination_direct(...)`: the returned series at
time step `t`. -/
def extent_contamination_direct (inp : DirectInput) (dl : ℚ) (t : Nat) : ℚ :=
  ∑ m ∈ Finset.range inp.M, contam_len_direct inp dl m t

/-! ## Temporal signal model (Pattern / TimeSeries / Demands)

The module `wntr.network.elements` that defines these classes is not part
of the provided sources — only its test suite
(src/wntr/network/tests/test_elements.py) is — so the definitions below
are modelled from the specification and checked against the concrete
values asserted by that test suite. -/

/-- Modelled from the spec: the class `wntr.network.elements.Pattern`, whose
source module is missing from the provided files.  Per the spec data model:
a name, an ordered multiplier sequence, a `step_size` in seconds per
multiplier, and a `wrap` flag.  The name is excluded from value equality. -/
structure Pattern where
  name : String
  multipliers : List ℚ
  step_size : ℚ
  wrap : Bool

/-- Modelled from the spec: `Pattern.at(time)` — "compute the step index =
floor(time / step_size).  If `wrap` is true, reduce index modulo pattern
length (length 0 → multiplier is always 1).  If `wrap` is false, indices
outside `[0, length)` yield 0.0.  If length is 0, always return 1.0
regardless of wrap." -/
def Pattern.at (p : Pattern) (time : ℚ) : ℚ :=
  let L := p.multipliers.length
  if L = 0 then 1
  else
    let idx : ℤ := ⌊time / p.step_size⌋
    if p.wrap then p.multipliers.getD (idx.emod (L : ℤ)).toNat 0
    else if 0 ≤ idx ∧ idx < (L : ℤ) then p.multipliers.getD idx.toNat 0
    else 0

/-- Modelled from the spec: Pattern value equality — "two patterns are equal
iff their multiplier sequences, step sizes, and wrap flags are equal (name
is excluded from equality)". -/
def Pattern.eqVal (p q : Pattern) : Bool :=
  decide (p.multipliers = q.multipliers) && decide (p.step_size = q.step_size)
    && (p.wrap == q.wrap)

/-- Modelled from the spec: the `Pattern.BinaryPattern` constructor —
"builds a full multiplier array of length `ceil(duration / step_size)`, set
to 1 over the half-open interval `[start_time, end_time)` in step units and
0 elsewhere; `wrap` defaults to false for this constructor".  Step index
`i` stands for the time `i * step_size`. -/
def Pattern.BinaryPattern (name : String)
    (start_time end_time step_size duration : ℚ) : Pattern :=
  { name := name
    multipliers := (List.range (Int.toNat ⌈duration / step_size⌉)).map
      (fun (i : ℕ) => if start_time ≤ (i : ℚ) * step_size ∧ (i : ℚ) * step_size < end_time
        then 1 else 0)
    step_size := step_size
    wrap := false }

/-- Modelled from the spec: the class `wntr.network.elements.TimeSeries`
(source module missing from the provided files): a numeric base value, an
optional Pattern, and an optional category label. -/
structure TimeSeries where
  base : ℚ
  pattern : Option Pattern
  category : Option String

/-- Modelled from the spec: `TimeSeries.at(time)` — "returns `base` when no
pattern, else `base × pattern.at(time)`". -/
def TimeSeries.at (ts : TimeSeries) (time : ℚ) : ℚ :=
  match ts.pattern with
  | none => ts.base
  | some p => ts.base * p.at time

/-- Modelled from the spec: the class `wntr.network.elements.Demands`
(source module missing from the provided files), an ordered collection of
TimeSeries entries. -/
abbrev Demands := List TimeSeries

/-- Modelled from the spec: `Demands.at(time, category=None)` — "sum of
`member.at(time)` over all members, or only members whose category equals
the filter when given", written as the accumulation loop over members. -/
def Demands.at (d : Demands) (time : ℚ) (category : Option String) : ℚ :=
  match category with
  | none => d.foldl (fun acc ts => acc + ts.at time) 0
  | some c => d.foldl (fun acc ts => if ts.category = some c then acc + ts.at time else acc) 0

/-- Modelled from the spec: a dynamically typed Python argument, as passed
to the TimeSeries constructor of `wntr.network.elements` (source module
missing from the provided files). -/
inductive PyValue where
  | num : ℚ → PyValue
  | str : String → PyValue
  | pat : Pattern → PyValue
  | pynone : PyValue

/-- True when the dynamic value is numeric. -/
def PyValue.isNumeric : PyValue → Bool
  | .num _ => true
  | _ => false

/-- True when the dynamic value is a Pattern instance or None. -/
def PyValue.isPatternOrNone : PyValue → Bool
  | .pat _ => true
  | .pynone => true
  | _ => false

/-- Modelled from the spec: the TimeSeries constructor — "fails with a
validation error if `base` is not numeric, or if `pattern` is neither
`None` nor a Pattern"; on success the constructed object carries the given
base, pattern and category, and no partial object is produced on failure. -/
def TimeSeries.create (base : PyValue) (pattern : PyValue)
    (category : Option String) : Except String TimeSeries :=
  match base with
  | .num b =>
    match pattern with
    | .pynone => .ok ⟨b, none, category⟩
    | .pat p => .ok ⟨b, some p, category⟩
    | _ => .error "pattern must be a Pattern object or None"
  | _ => .error "base must be a number"

/-! ## Concrete fixtures used by the witness theorems -/

/-- Fixture: a demand table, positive at time step 0 and negative later. -/
def demandEx : Nat → Nat → ℚ := fun t _ => if t = 0 then 2 else -1

/-- Fixture: a constant quality table. -/
def qualityEx : Nat → Nat → ℚ := fun _ _ => 3

/-- Fixture: an all-zero quality table. -/
def qualityZeroEx : Nat → Nat → ℚ := fun _ _ => 0

/-- Fixture: a uniform time axis whose second entry is 600 s. -/
def qidxEx : Nat → ℚ := fun i => if i = 1 then 600 else 0

/-- Fixture: a two-link network for the indirect extent metric. -/
def indInpEx : IndirectInput :=
  { M := 2
    node_quality := fun _ n => if n = 0 then 1 else 0
    flow_rate := fun _ m => if m = 0 then 1 else 0
    link_start_node := fun _ => 0
    link_end_node := fun _ => 1
    link_length := fun m => if m = 0 then 10 else 20 }

/-- Fixture: a one-link input for the direct extent metric. -/
def dirInpEx : DirectInput :=
  { M := 1
    link_quality := fun t _ => if t = 0 then 0 else 5
    link_length := fun _ => 7 }

/-- Fixture: a one-link indirect input whose node qualities all equal the
default detection limit 0. -/
def indInpZeroEx : IndirectInput :=
  { M := 1
    node_quality := fun _ _ => 0
    flow_rate := fun _ _ => 1
    link_start_node := fun _ => 0
    link_end_node := fun _ => 1
    link_length := fun _ => 5 }

/-- Fixture: a one-link direct input whose link qualities all equal the
default detection limit 0. -/
def dirInpZeroEx : DirectInput :=
  { M := 1
    link_quality := fun _ _ => 0
    link_length := fun _ => 5 }

/-- Fixture: the wrapping pattern of the unit tests
(multipliers [1,2,3,4,3,2,1], step 5). -/
def patWrapEx : Pattern := ⟨"p2b", [1, 2, 3, 4, 3, 2, 1], 5, true⟩

/-- Fixture: the non-wrapping pattern of the unit tests
(multipliers [1.0, 1.2, 1.0], step 100). -/
def patClampEx : Pattern := ⟨"p3", [1, 6/5, 1], 100, false⟩

/-- Fixture: an empty wrapping pattern. -/
def patEmptyEx : Pattern := ⟨"p4", [], 10, true⟩

/-- Fixture: a categorized demand collection. -/
def demandsEx : Demands :=
  [⟨5/2, none, some "_base_demand"⟩, ⟨1, none, some "residential"⟩,
    ⟨4/5, none, some "residential"⟩]

/-! ## Sanity checks replicating src/wntr/network/tests/test_elements.py -/

example : patWrapEx.at 10 = 3 := by norm_num [Pattern.at, patWrapEx]; rfl

example : patWrapEx.at (25/2) = 3 := by norm_num [Pattern.at, patWrapEx]; rfl

example : patWrapEx.at 45 = 3 := by norm_num [Pattern.at, patWrapEx]; rfl

example : patWrapEx.at 15 = 4 := by norm_num [Pattern.at, patWrapEx]; rfl

example : patClampEx.at (-39) = 0 := by norm_num [Pattern.at, patClampEx]

example : patClampEx.at 50 = 1 := by norm_num [Pattern.at, patClampEx]

example : patEmptyEx.at 492 = 1 := by norm_num [Pattern.at, patEmptyEx]

example : Pattern.eqVal (Pattern.BinaryPattern "binary" 2 6 1 9)
    (Pattern.mk "binary" [0, 0, 1, 1, 1, 1, 0, 0, 0] 1 false) = true := by
  have h : Int.toNat ⌈(9:ℚ)/1⌉ = 9 := by norm_num; rfl
  simp only [Pattern.eqVal, Pattern.BinaryPattern, h, List.range_succ]
  norm_num

/-! ## Helper lemmas -/

lemma sign_pos_iff (x : ℚ) : 0 < sign x ↔ 0 < x := by
  unfold sign
  split
  · simp [*]
  · split <;> rename_i h1 h2 <;> constructor <;> intro h
    · norm_num at h
    · exact absurd h h1
    · norm_num at h
    · exact absurd h h1

lemma sign_neg_iff (x : ℚ) : sign x < 0 ↔ x < 0 := by
  unfold sign
  split
  · rename_i h1
    constructor
    · intro h; norm_num at h
    · intro h; exact absurd (h.trans h1) (lt_irrefl x)
  · split
    · simp [*]
    · rename_i h1 h2
      constructor
      · intro h; norm_num at h
      · intro h; exact absurd h h2

lemma exists_le_zero_iff (c : Nat → Bool) : (∃ j ≤ 0, c j = true) ↔ c 0 = true := by
  constructor
  · rintro ⟨j, hj, hc⟩
    have : j = 0 := Nat.le_zero.mp hj
    rwa [this] at hc
  · intro h; exact ⟨0, Nat.le_refl 0, h⟩

lemma exists_le_succ_iff (c : Nat → Bool) (t : Nat) :
    (∃ j ≤ t + 1, c j = true) ↔ (∃ j ≤ t, c j = true) ∨ c (t + 1) = true := by
  constructor
  · rintro ⟨j, hj, hc⟩
    rcases Nat.le_succ_iff.mp hj with h | h
    · exact Or.inl ⟨j, h, hc⟩
    · exact Or.inr (by rwa [h] at hc)
  · rintro (⟨j, hj, hc⟩ | h)
    · exact ⟨j, Nat.le_succ_of_le hj, hc⟩
    · exact ⟨t + 1, Nat.le_refl _, h⟩

lemma cummax_indicator (c : Nat → Bool) (L : ℚ) (hL : 0 ≤ L) (t : Nat) :
    cummax (fun j => boolToRat (c j) * L) t = if ∃ j ≤ t, c j = true then L else 0 := by
  induction t with
  | zero =>
    rw [cummax]
    simp only [exists_le_zero_iff]
    cases h : c 0 <;> simp [h, boolToRat]
  | succ t ih =>
    rw [cummax, ih]
    by_cases hp : ∃ j ≤ t, c j = true <;> cases hc : c (t + 1) <;>
      simp [hp, hc, boolToRat, exists_le_succ_iff, max_eq_left hL, max_eq_right hL]

lemma cummax_le_succ (f : Nat → ℚ) (t : Nat) : cummax f t ≤ cummax f (t + 1) := by
  rw [cummax]; exact le_max_left _ _

lemma cummax_mono (f : Nat → ℚ) : Monotone (cummax f) :=
  monotone_nat_of_le_succ (cummax_le_succ f)

lemma contam_len_eq (inp : IndirectInput) (dl : ℚ) (m : Nat)
    (hL : 0 ≤ inp.link_length m) (t : Nat) :
    contam_len inp dl m t =
      if ∃ j ≤ t, link_contam inp dl j m = true then inp.link_length m else 0 :=
  cummax_indicator (fun j => link_contam inp dl j m) (inp.link_length m) hL t

lemma foldl_add_at (l : List TimeSeries) (time a : ℚ) :
    l.foldl (fun acc ts => acc + ts.at time) a = a + (l.map (fun ts => ts.at time)).sum := by
  induction l generalizing a with
  | nil => simp
  | cons ts l ih => simp [List.foldl_cons, ih, add_assoc]

lemma foldl_filter_add_at (l : List TimeSeries) (time a : ℚ) (c : String) :
    l.foldl (fun acc ts => if ts.category = some c then acc + ts.at time else acc) a =
      a + ((l.filter (fun ts => ts.category == some c)).map (fun ts => ts.at time)).sum := by
  induction l generalizing a with
  | nil => simp
  | cons ts l ih =>
    by_cases h : ts.category = some c
    · simp [List.foldl_cons, h, ih, add_assoc]
    · simp [List.foldl_cons, h, ih]

/-! ## Claim theorems -/

/-- Claim C1: for every time step and every link,
`extent_contamination_indirect` marks the link contaminated at a step iff
(the flow rate is strictly positive and the quality at the link's start
node strictly exceeds the detection limit) or (the flow rate is strictly
negative and the quality at the link's end node strictly exceeds it); zero
flow never marks a link; marking is cumulative over time (the per-link
running state `contam_len` holds the link's length iff the link was marked
at some step `j ≤ t`); and the returned value at each time step is the sum
of `link_length` over all links marked at that step.  Link lengths are
nonnegative, as the spec data model requires (physical length, positive). -/
theorem extent_contamination_indirect_marks_and_sums (inp : IndirectInput) (dl : ℚ)
    (hL : ∀ m, 0 ≤ inp.link_length m) (t : Nat) :
    (∀ j m, link_contam inp dl j m = true ↔
        (0 < inp.flow_rate j m ∧ dl < inp.node_quality j (inp.link_start_node m)) ∨
          (inp.flow_rate j m < 0 ∧ dl < inp.node_quality j (inp.link_end_node m)))
      ∧ (∀ j m, inp.flow_rate j m = 0 → link_contam inp dl j m = false)
      ∧ (∀ m, contam_len inp dl m t =
          if ∃ j ≤ t, link_contam inp dl j m = true then inp.link_length m else 0)
      ∧ extent_contamination_indirect inp dl t =
          ∑ m ∈ Finset.range inp.M,
            if ∃ j ≤ t, link_contam inp dl j m = true then inp.link_length m else 0 := by
  refine ⟨?_, ?_, ?_, ?_⟩
  · intro j m
    simp only [link_contam, node_contam, Bool.or_eq_true, Bool.and_eq_true, decide_eq_true_eq]
    rw [sign_pos_iff, sign_neg_iff]
  · intro j m h
    simp [link_contam, node_contam, sign, h]
  · intro m
    exact contam_len_eq inp dl m (hL m) t
  · unfold extent_contamination_indirect
    exact Finset.sum_congr rfl (fun m _ => contam_len_eq inp dl m (hL m) t)

/-- Witness for claim C1 at a concrete two-link input. -/
theorem extent_contamination_indirect_marks_and_sums_witness :
    extent_contamination_indirect indInpEx (0:ℚ) 1 =
      ∑ m ∈ Finset.range indInpEx.M,
        if ∃ j ≤ (1:Nat), link_contam indInpEx (0:ℚ) j m = true
        then indInpEx.link_length m else 0 :=
  (extent_contamination_indirect_marks_and_sums indInpEx 0
    (fun m => by simp only [indInpEx]; split <;> norm_num) 1).2.2.2

/-- Claim C2: for every node-results input, the cell of
`mass_contaminant_consumed` for node `n` at time step `t` equals
`demand(t,n) × Δt × quality(t,n)` when the demand is positive and 0 when
it is nonpositive, with `Δt` the time value at positional index 1 of the
quality table's time axis.  The returned table has one cell per input
cell, so it has the shape of the input. -/
theorem mass_contaminant_consumed_cell (demand quality : Nat → Nat → ℚ)
    (qidx : Nat → ℚ) (t n : Nat) :
    (0 < demand t n →
      mass_contaminant_consumed demand quality qidx t n = demand t n * qidx 1 * quality t n)
      ∧ (demand t n ≤ 0 → mass_contaminant_consumed demand quality qidx t n = 0) := by
  constructor <;> intro h
  · simp [mass_contaminant_consumed, boolToRat, h]
  · simp [mass_contaminant_consumed, boolToRat, not_lt.mpr h]

/-- Witness for claim C2 at a concrete input. -/
theorem mass_contaminant_consumed_cell_witness :
    0 < demandEx 0 0 ∧
      mass_contaminant_consumed demandEx qualityEx qidxEx 0 0 =
        demandEx 0 0 * qidxEx 1 * qualityEx 0 0 :=
  ⟨by norm_num [demandEx],
    (mass_contaminant_consumed_cell demandEx qualityEx qidxEx 0 0).1 (by norm_num [demandEx])⟩

/-- Claim C3: for both `extent_contamination_indirect` and
`extent_contamination_direct`, for every input and detection limit, the
returned per-time-step series is non-decreasing along the time axis. -/
theorem extent_contamination_monotone (inpI : IndirectInput) (inpD : DirectInput)
    (dlI dlD : ℚ) (t t' : Nat) (h : t ≤ t') :
    extent_contamination_indirect inpI dlI t ≤ extent_contamination_indirect inpI dlI t'
      ∧ extent_contamination_direct inpD dlD t ≤ extent_contamination_direct inpD dlD t' := by
  constructor
  · exact Finset.sum_le_sum (fun m _ => cummax_mono _ h)
  · exact Finset.sum_le_sum (fun m _ => cummax_mono _ h)

/-- Witness for claim C3 at concrete inputs and time steps 0 ≤ 2. -/
theorem extent_contamination_monotone_witness :
    extent_contamination_indirect indInpEx 0 0 ≤ extent_contamination_indirect indInpEx 0 2
      ∧ extent_contamination_direct dirInpEx 0 0 ≤ extent_contamination_direct dirInpEx 0 2 :=
  extent_contamination_monotone indInpEx dirInpEx 0 0 0 2 (by norm_num)

/-- Claim C4: for every node-results input and detection limit, the cell
of `volume_contaminant_consumed` for node `n` at time step `t` equals
`demand(t,n) × Δt` when `quality(t,n)` strictly exceeds the detection
limit and the demand is positive, and 0 otherwise (the quality value never
weights the result), with `Δt` the time value at positional index 1 of the
quality table's time axis. -/
theorem volume_contaminant_consumed_cell (demand quality : Nat → Nat → ℚ)
    (qidx : Nat → ℚ) (dl : ℚ) (t n : Nat) :
    (dl < quality t n ∧ 0 < demand t n →
      volume_contaminant_consumed demand quality qidx dl t n = demand t n * qidx 1)
      ∧ (¬(dl < quality t n ∧ 0 < demand t n) →
      volume_contaminant_consumed demand quality qidx dl t n = 0) := by
  constructor
  · rintro ⟨h1, h2⟩
    simp [volume_contaminant_consumed, boolToRat, h1, h2]
  · intro h
    rcases Decidable.not_and_iff_or_not.mp h with h1 | h1 <;>
      simp [volume_contaminant_consumed, boolToRat, h1]

/-- Witness for claim C4 at a concrete input. -/
theorem volume_contaminant_consumed_cell_witness :
    ((0:ℚ) < qualityEx 0 0 ∧ 0 < demandEx 0 0) ∧
      volume_contaminant_consumed demandEx qualityEx qidxEx 0 0 0 = demandEx 0 0 * qidxEx 1 :=
  ⟨⟨by norm_num [qualityEx], by norm_num [demandEx]⟩,
    (volume_contaminant_consumed_cell demandEx qualityEx qidxEx 0 0 0).1
      ⟨by norm_num [qualityEx], by norm_num [demandEx]⟩⟩

/-- Claim C5: `Pattern.at(time)` computes index = floor(time / step_size)
and returns the multiplier at index mod L when wrap is true and L > 0 (the
reduced index lying inside the sequence), the multiplier at the index when
wrap is false and 0 ≤ index < L, 0 when wrap is false and the index is
outside [0, L) (for a nonempty sequence; the empty case is governed by the
final clause), and 1 at every time when L = 0 regardless of wrap. -/
theorem pattern_at_eval (p : Pattern) (t : ℚ) :
    (p.wrap = true → 0 < p.multipliers.length →
      p.at t = p.multipliers.getD
          ((⌊t / p.step_size⌋.emod (p.multipliers.length : ℤ)).toNat) 0
        ∧ (⌊t / p.step_size⌋.emod (p.multipliers.length : ℤ)).toNat < p.multipliers.length)
      ∧ (p.wrap = false → 0 ≤ ⌊t / p.step_size⌋ →
          ⌊t / p.step_size⌋ < (p.multipliers.length : ℤ) →
        p.at t = p.multipliers.getD (⌊t / p.step_size⌋.toNat) 0)
      ∧ (p.wrap = false → 0 < p.multipliers.length →
          (⌊t / p.step_size⌋ < 0 ∨ (p.multipliers.length : ℤ) ≤ ⌊t / p.step_size⌋) →
        p.at t = 0)
      ∧ (p.multipliers.length = 0 → p.at t = 1) := by
  refine ⟨?_, ?_, ?_, ?_⟩
  · intro hw hL
    constructor
    · simp [Pattern.at, hw, Nat.pos_iff_ne_zero.mp hL]
    · have hL' : (0:ℤ) < (p.multipliers.length : ℤ) := by exact_mod_cast hL
      have h1 : 0 ≤ ⌊t / p.step_size⌋.emod (p.multipliers.length : ℤ) :=
        Int.emod_nonneg _ (ne_of_gt hL')
      have h2 : ⌊t / p.step_size⌋.emod (p.multipliers.length : ℤ) <
          (p.multipliers.length : ℤ) := Int.emod_lt_of_pos _ hL'
      exact (Int.toNat_lt h1).mpr h2
  · intro hw h0 hL
    have hL0 : p.multipliers.length ≠ 0 := by
      intro h
      rw [h] at hL
      exact absurd (h0.trans_lt hL) (lt_irrefl 0)
    simp [Pattern.at, hw, hL0, h0, hL]
  · intro hw hL h
    have hL0 : p.multipliers.length ≠ 0 := Nat.pos_iff_ne_zero.mp hL
    have hcond : ¬(0 ≤ ⌊t / p.step_size⌋ ∧ ⌊t / p.step_size⌋ < (p.multipliers.length : ℤ)) := by
      rcases h with h | h
      · exact fun hc => absurd hc.1 (not_le.mpr h)
      · exact fun hc => absurd hc.2 (not_lt.mpr h)
    simp [Pattern.at, hw, hL0, hcond]
  · intro hL
    simp [Pattern.at, hL]

/-- Witness for claim C5, one concrete evaluation for each branch. -/
theorem pattern_at_eval_witness :
    (patWrapEx.at 45 = patWrapEx.multipliers.getD
        ((⌊(45:ℚ) / patWrapEx.step_size⌋.emod (patWrapEx.multipliers.length : ℤ)).toNat) 0)
      ∧ (patClampEx.at 50 = patClampEx.multipliers.getD
          (⌊(50:ℚ) / patClampEx.step_size⌋.toNat) 0)
      ∧ patClampEx.at (-39) = 0
      ∧ patEmptyEx.at 492 = 1 :=
  ⟨((pattern_at_eval patWrapEx 45).1 rfl (by norm_num [patWrapEx])).1,
    (pattern_at_eval patClampEx 50).2.1 rfl (by norm_num [patClampEx])
      (by norm_num [patClampEx]),
    (pattern_at_eval patClampEx (-39)).2.2.1 rfl (by norm_num [patClampEx])
      (Or.inl (by norm_num [patClampEx])),
    (pattern_at_eval patEmptyEx 492).2.2.2 rfl⟩

/-- Claim C6: a Pattern built by the `BinaryPattern` constructor equals,
by Pattern value equality, a Pattern constructed directly from the 0/1
multiplier list of length ceil(duration / step_size) that is 1 exactly on
the step indices in the half-open interval [start_time, end_time) and 0
elsewhere, with wrap false.  The direct pattern's list is given by its
characteristic property in the hypotheses. -/
theorem binaryPattern_refines_direct_list (name1 name2 : String) (s e S d : ℚ)
    (mult : List ℚ)
    (hlen : mult.length = Int.toNat ⌈d / S⌉)
    (hval : ∀ i, i < mult.length →
      mult.getD i 0 = if s ≤ (i : ℚ) * S ∧ (i : ℚ) * S < e then 1 else 0) :
    Pattern.eqVal (Pattern.BinaryPattern name1 s e S d)
      (Pattern.mk name2 mult S false) = true := by
  have hmul : (Pattern.BinaryPattern name1 s e S d).multipliers = mult := by
    apply List.ext_getElem
    · simp only [Pattern.BinaryPattern, List.length_map, List.length_range, hlen]
    · intro i h1 h2
      simp only [Pattern.BinaryPattern, List.getElem_map, List.getElem_range]
      rw [← List.getD_eq_getElem mult 0 h2]
      exact (hval i h2).symm
  have hstep : (Pattern.BinaryPattern name1 s e S d).step_size = S := rfl
  have hwrap : (Pattern.BinaryPattern name1 s e S d).wrap = false := rfl
  simp [Pattern.eqVal, hmul, hstep, hwrap]

/-- Witness for claim C6 at the instance of the unit tests: step 1, active
interval [2, 6), duration 9. -/
theorem binaryPattern_refines_direct_list_witness :
    ([0, 0, 1, 1, 1, 1, 0, 0, 0] : List ℚ).length = Int.toNat ⌈(9:ℚ) / 1⌉
      ∧ Pattern.eqVal (Pattern.BinaryPattern "binary" 2 6 1 9)
        (Pattern.mk "binary" [0, 0, 1, 1, 1, 1, 0, 0, 0] 1 false) = true :=
  ⟨by norm_num; rfl,
    binaryPattern_refines_direct_list "binary" "binary" 2 6 1 9
      [0, 0, 1, 1, 1, 1, 0, 0, 0]
      (by norm_num; rfl)
      (by
        intro i hi
        simp only [List.length_cons, List.length_nil] at hi
        interval_cases i <;> norm_num [List.getD])⟩

/-- Claim C7: for every Demands collection, time and category filter,
`Demands.at` sums `member.at(time)` over exactly the members whose
category equals the filter, or over all members when the filter is None;
an empty collection, and an empty filtered subset, yield 0. -/
theorem demands_at_additive (d : Demands) (time : ℚ) :
    Demands.at d time none = (d.map (fun ts => ts.at time)).sum
      ∧ (∀ c, Demands.at d time (some c) =
          ((d.filter (fun ts => ts.category == some c)).map (fun ts => ts.at time)).sum)
      ∧ (∀ cat, Demands.at ([] : Demands) time cat = 0)
      ∧ (∀ c, (∀ ts ∈ d, ts.category ≠ some c) → Demands.at d time (some c) = 0) := by
  refine ⟨?_, ?_, ?_, ?_⟩
  · rw [Demands.at, foldl_add_at, zero_add]
  · intro c
    rw [Demands.at, foldl_filter_add_at, zero_add]
  · intro cat
    cases cat <;> simp [Demands.at]
  · intro c h
    rw [Demands.at, foldl_filter_add_at, zero_add]
    have : d.filter (fun ts => ts.category == some c) = [] := by
      rw [List.filter_eq_nil_iff]
      intro ts hts
      simp [h ts hts]
    rw [this]
    simp

/-- Witness for claim C7 at a concrete demand collection: the unfiltered
sum and an empty filtered subset. -/
theorem demands_at_additive_witness :
    Demands.at demandsEx 0 none = (demandsEx.map (fun ts => ts.at 0)).sum
      ∧ Demands.at demandsEx 0 (some "commercial") = 0 :=
  ⟨(demands_at_additive demandsEx 0).1,
    (demands_at_additive demandsEx 0).2.2.2 "commercial"
      (by
        intro ts hts
        simp only [demandsEx, List.mem_cons, List.not_mem_nil, or_false] at hts
        rcases hts with rfl | rfl | rfl <;> simp)⟩

/-- Claim C8: for every Pattern with wrap true, multiplier sequence of
length L and step size S, and every time t, `at(t) = at(t + L×S)`. -/
theorem pattern_wrap_period (p : Pattern) (hw : p.wrap = true) (t : ℚ) :
    p.at t = p.at (t + (p.multipliers.length : ℚ) * p.step_size) := by
  by_cases hL : p.multipliers.length = 0
  · simp [Pattern.at, hL]
  · by_cases hS : p.step_size = 0
    · rw [hS, mul_zero, add_zero]
    · have key : ⌊(t + (p.multipliers.length : ℚ) * p.step_size) / p.step_size⌋.emod
          (p.multipliers.length : ℤ) =
          ⌊t / p.step_size⌋.emod (p.multipliers.length : ℤ) := by
        have hdiv : (t + (p.multipliers.length : ℚ) * p.step_size) / p.step_size =
            t / p.step_size + (p.multipliers.length : ℚ) := by
          field_simp
        rw [hdiv, Int.floor_add_nat]
        have : ⌊t / p.step_size⌋ + (p.multipliers.length : ℤ) =
            ⌊t / p.step_size⌋ + (p.multipliers.length : ℤ) * 1 := by ring
        rw [this]
        exact Int.add_mul_emod_self_left _ _ _
      simp [Pattern.at, hw, hL, key]

/-- Witness for claim C8 at the wrapping test pattern, shifted by one full
period 7 × 5. -/
theorem pattern_wrap_period_witness :
    patWrapEx.at 3 =
      patWrapEx.at (3 + (patWrapEx.multipliers.length : ℚ) * patWrapEx.step_size) :=
  pattern_wrap_period patWrapEx rfl 3

/-- Claim C9: constructing a TimeSeries succeeds exactly when the base
argument is numeric and the pattern argument is None or a Pattern
instance; otherwise it fails with a validation error and returns no
object. -/
theorem timeSeries_create_validation (base pattern : PyValue) (category : Option String) :
    ((∃ ts, TimeSeries.create base pattern category = .ok ts) ↔
      base.isNumeric = true ∧ pattern.isPatternOrNone = true)
      ∧ (base.isNumeric = false ∨ pattern.isPatternOrNone = false →
        ∃ msg, TimeSeries.create base pattern category = .error msg) := by
  constructor
  · constructor
    · rintro ⟨ts, hts⟩
      cases base <;> cases pattern <;>
        simp_all [TimeSeries.create, PyValue.isNumeric, PyValue.isPatternOrNone]
    · rintro ⟨h1, h2⟩
      cases base <;> cases pattern <;>
        simp_all [TimeSeries.create, PyValue.isNumeric, PyValue.isPatternOrNone]
  · intro h
    cases base <;> cases pattern <;>
      simp_all [TimeSeries.create, PyValue.isNumeric, PyValue.isPatternOrNone]

/-- Witness for claim C9: a non-numeric base yields a validation error and
no constructed object. -/
theorem timeSeries_create_validation_witness :
    (∃ msg, TimeSeries.create (PyValue.str "A") PyValue.pynone none = .error msg)
      ∧ ¬∃ ts, TimeSeries.create (PyValue.str "A") PyValue.pynone none = .ok ts :=
  ⟨(timeSeries_create_validation (PyValue.str "A") PyValue.pynone none).2 (Or.inl rfl),
    fun h => by
      have := ((timeSeries_create_validation (PyValue.str "A") PyValue.pynone none).1).mp h
      simp [PyValue.isNumeric] at this⟩

/-- Claim C10: every threshold comparison in `volume_contaminant_consumed`,
`extent_contamination_indirect` and `extent_contamination_direct` is
strict: a quality value exactly equal to the detection limit contributes
no volume and never marks a link, for every detection limit. -/
theorem detection_limit_strict (demand quality : Nat → Nat → ℚ) (qidx : Nat → ℚ)
    (dl : ℚ) (inpI : IndirectInput) (inpD : DirectInput) (t n m : Nat) :
    (quality t n = dl → volume_contaminant_consumed demand quality qidx dl t n = 0)
      ∧ (inpI.node_quality t (inpI.link_start_node m) = dl →
          inpI.node_quality t (inpI.link_end_node m) = dl → link_contam inpI dl t m = false)
      ∧ (inpD.link_quality t m = dl → link_contam_direct inpD dl t m = false) := by
  refine ⟨?_, ?_, ?_⟩
  · intro h
    simp [volume_contaminant_consumed, boolToRat, h]
  · intro h1 h2
    simp [link_contam, node_contam, h1, h2]
  · intro h
    simp [link_contam_direct, h]

/-- Witness for claim C10 at the default detection limit 0 and inputs
whose qualities equal it exactly. -/
theorem detection_limit_strict_witness :
    volume_contaminant_consumed demandEx qualityZeroEx qidxEx 0 0 0 = 0
      ∧ link_contam indInpZeroEx 0 0 0 = false
      ∧ link_contam_direct dirInpZeroEx 0 0 0 = false :=
  ⟨(detection_limit_strict demandEx qualityZeroEx qidxEx 0 indInpZeroEx dirInpZeroEx 0 0 0).1
      rfl,
    (detection_limit_strict demandEx qualityZeroEx qidxEx 0 indInpZeroEx dirInpZeroEx 0 0 0).2.1
      rfl rfl,
    (detection_limit_strict demandEx qualityZeroEx qidxEx 0 indInpZeroEx dirInpZeroEx 0 0 0).2.2
      rfl⟩

end WNTR
